import Mathlib

/-!
Verification of the adaptive problem-recommendation backend.

The definitions below are a shallow embedding of the JavaScript source:
  - `TopicMastery` / `preSaveTopicMastery`  — backend/models/TopicMastery.js
  - `ProgressRec` / `preSaveProgress` / `submitAttempt`
        — backend/models/UserProgress.js and the POST /api/problems/:id/submit
          handler in backend/routes/problems.js
  - `findWeakestTopic`, `selectDifficultyForTopic`, `getNextTopic`,
    `getRandomProblem`, `generateDailyRecommendation`, `updateTopicMastery`
        — backend/services/recommendationService.js
  - `getDailyRecommendationHandler` — GET /api/problems/daily-recommendation
          in backend/routes/problems.js
  - `computeCurrentStreak` — GET /api/progress/streak in backend/routes/users.js
          (the same loop appears in backend/services/backgroundJobs.js)

Modelling conventions: JavaScript numbers are modelled as `Nat` (counters,
ids), `Int` (mastery levels, calendar days) and `ℚ` (success rates and the
mastery score, where real division occurs).  `Math.round` is `jsRound`
(floor of x + 1/2, exact for the non-negative values that occur here).
Calendar days are integers (a day offset from an arbitrary epoch); the
MongoDB collections are lists of records, and a query such as
`findOne({userId, topic})` is `List.find?` with the corresponding
predicate.  Randomness (`Math.floor(Math.random()*count)`) is an explicit
index parameter ranging over `[0, count)`.
-/

/-- JavaScript `Math.round` for the non-negative rationals occurring in the
mastery computation: `Math.round(x) = ⌊x + 1/2⌋` (rounding half up). -/
def jsRound (q : ℚ) : ℤ := ⌊q + 1/2⌋

/-- Per-difficulty counters (the `{easy, medium, hard}` sub-documents of
`problemsAttempted` and `problemsSolved` in TopicMastery.js). -/
structure DiffCounts where
  easy : ℕ
  medium : ℕ
  hard : ℕ
deriving DecidableEq, Repr

/-- Per-difficulty rates (the `successRates` sub-document, including the
`overall` field, of TopicMastery.js). -/
structure DiffRates where
  easy : ℚ
  medium : ℚ
  hard : ℚ
  overall : ℚ
deriving DecidableEq, Repr

/-- Per-difficulty averages (the `averageAttempts` sub-document). -/
structure DiffAverages where
  easy : ℚ
  medium : ℚ
  hard : ℚ
deriving DecidableEq, Repr

/-- One TopicMastery document (backend/models/TopicMastery.js).  The
`lastUpdated` timestamp is not modelled (no claim mentions it). -/
structure TopicMastery where
  userId : ℕ
  topic : String
  masteryLevel : ℤ
  problemsAttempted : DiffCounts
  problemsSolved : DiffCounts
  successRates : DiffRates
  averageAttempts : DiffAverages
  recommendedDifficulty : String
deriving DecidableEq, Repr

/-- A fresh TopicMastery document with the schema defaults
(`masteryLevel` 0, all counters 0, `recommendedDifficulty` "easy"). -/
def newTopicMastery (uid : ℕ) (topic : String) : TopicMastery where
  userId := uid
  topic := topic
  masteryLevel := 0
  problemsAttempted := ⟨0, 0, 0⟩
  problemsSolved := ⟨0, 0, 0⟩
  successRates := ⟨0, 0, 0, 0⟩
  averageAttempts := ⟨0, 0, 0⟩
  recommendedDifficulty := "easy"

/-- `problemsSolved.easy + problemsSolved.medium + problemsSolved.hard`
(TopicMastery.js pre-save hook, `totalSolved`). -/
def totalSolved (tm : TopicMastery) : ℕ :=
  tm.problemsSolved.easy + tm.problemsSolved.medium + tm.problemsSolved.hard

/-- `problemsAttempted.easy + ... + problemsAttempted.hard`
(TopicMastery.js pre-save hook, `totalAttempted`). -/
def totalAttempted (tm : TopicMastery) : ℕ :=
  tm.problemsAttempted.easy + tm.problemsAttempted.medium + tm.problemsAttempted.hard

/-- The mastery score computed in the `totalAttempted > 0` branch of the
TopicMastery pre-save hook, before rounding and clamping:
base success rate (0-60) + difficulty-distribution bonus (0-25) +
consistency bonus (0-15). -/
def masteryScore (tm : TopicMastery) : ℚ :=
  ((totalSolved tm : ℚ) / (totalAttempted tm : ℚ)) * 100 * 0.6
    + ((tm.problemsSolved.medium : ℚ) * 1.5 + (tm.problemsSolved.hard : ℚ) * 2.5)
        / (max (totalSolved tm) 1 : ℕ) * 25
    + min ((totalAttempted tm : ℚ) / 10) 1 * 15

/-- The `topicMasterySchema.pre("save")` hook (TopicMastery.js lines 85-124):
when `totalAttempted > 0` it recomputes `successRates.overall` and
`masteryLevel = Math.min(Math.round(masteryScore), 100)`, otherwise it leaves
both untouched; then it re-derives `recommendedDifficulty` from the
(possibly updated) masteryLevel. -/
def preSaveTopicMastery (tm : TopicMastery) : TopicMastery :=
  let tm1 :=
    if 0 < totalAttempted tm then
      { tm with
        successRates := { tm.successRates with
          overall := ((totalSolved tm : ℚ) / (totalAttempted tm : ℚ)) * 100 }
        masteryLevel := min (jsRound (masteryScore tm)) 100 }
    else tm
  { tm1 with
    recommendedDifficulty :=
      if tm1.masteryLevel < 40 then "easy"
      else if tm1.masteryLevel < 70 then "medium"
      else "hard" }

theorem jsRound_min_100 (q : ℚ) : min (jsRound q) 100 = jsRound (min q 100) := by
  unfold jsRound
  rcases le_total q 100 with h | h
  · rw [min_eq_left h, min_eq_left]
    rw [Int.floor_le_iff]
    push_cast
    linarith
  · rw [min_eq_right h]
    have h1 : (100 : ℤ) ≤ ⌊q + 1/2⌋ := by
      rw [Int.le_floor]; push_cast; linarith
    rw [min_eq_right h1]
    have : ⌊(100 : ℚ) + 1/2⌋ = 100 := by
      rw [Int.floor_eq_iff]; norm_num
    omega

/-- One entry of a Progress record's `attempts` array
(backend/models/UserProgress.js). -/
structure Attempt where
  attemptNumber : ℕ
  code : String
  language : String
  result : String
  timeTaken : ℕ
  testCasesPassed : ℕ
  totalTestCases : ℕ
  timestamp : ℕ
deriving DecidableEq, Repr

/-- One UserProgress document (backend/models/UserProgress.js).  Dates are
abstract timestamps (`ℕ`). -/
structure ProgressRec where
  userId : ℕ
  problemId : ℕ
  attempts : List Attempt
  status : String
  difficulty : String
  topic : String
  firstAttemptDate : Option ℕ
  solvedDate : Option ℕ
  totalAttempts : ℕ
deriving DecidableEq, Repr

/-- The `userProgressSchema.pre("save")` hook (UserProgress.js lines 97-109):
sync `totalAttempts` with the attempt list, set `solvedDate` on first
transition to "solved", and set `firstAttemptDate` from the first attempt. -/
def preSaveProgress (now : ℕ) (p : ProgressRec) : ProgressRec :=
  let p1 := { p with totalAttempts := p.attempts.length }
  let p2 :=
    if p1.status == "solved" && p1.solvedDate.isNone then
      { p1 with solvedDate := some now }
    else p1
  match p2.attempts with
  | [] => p2
  | a :: _ =>
    if p2.firstAttemptDate.isNone then { p2 with firstAttemptDate := some a.timestamp }
    else p2

/-- The fresh Progress record built by the submit handler when
`UserProgress.findOne({userId, problemId})` finds nothing
(backend/routes/problems.js lines 144-152, with the schema defaults of
UserProgress.js). -/
def newProgressRec (uid problemId : ℕ) (problemDifficulty problemTopic : String) :
    ProgressRec where
  userId := uid
  problemId := problemId
  attempts := []
  status := "not-attempted"
  difficulty := problemDifficulty
  topic := problemTopic
  firstAttemptDate := none
  solvedDate := none
  totalAttempts := 0

/-- Core of the POST /api/problems/:id/submit handler
(backend/routes/problems.js lines 142-182) followed by the UserProgress
pre-save hook: find or create the Progress record, append the new attempt,
set `status`/`solvedDate` according to whether all test cases passed, and
save.  `existing` is the result of `UserProgress.findOne({userId, problemId})`;
`problemDifficulty`/`problemTopic` come from the submitted problem. -/
def submitAttempt (existing : Option ProgressRec) (uid problemId : ℕ)
    (problemDifficulty problemTopic : String) (code language : String)
    (timeTaken testCasesPassed totalTestCases : ℕ) (now : ℕ) : ProgressRec :=
  let passed := testCasesPassed == totalTestCases
  let progress := existing.getD (newProgressRec uid problemId problemDifficulty problemTopic)
  let attemptNumber := progress.attempts.length + 1
  let progress := { progress with
    attempts := progress.attempts ++
      [({ attemptNumber := attemptNumber, code := code, language := language,
          result := if passed then "passed" else "failed",
          timeTaken := timeTaken, testCasesPassed := testCasesPassed,
          totalTestCases := totalTestCases, timestamp := now : Attempt })] }
  let progress :=
    if passed then
      { progress with
        status := "solved"
        solvedDate := if progress.solvedDate.isNone then some now else progress.solvedDate }
    else { progress with status := "attempted" }
  preSaveProgress now progress

/-- One Problem document, restricted to the fields the recommendation logic
reads (backend/models/Problem.js). -/
structure Problem where
  id : ℕ
  topic : String
  difficulty : String
  isActive : Bool
deriving DecidableEq, Repr

/-- The MongoDB query `{isActive: true, difficulty}` plus `topic` when one is
given (recommendationService.js `getRandomProblem`, lines 105-106). -/
def problemQuery (topic : Option String) (difficulty : String) (p : Problem) : Bool :=
  p.isActive && p.difficulty == difficulty &&
    (match topic with
     | some t => p.topic == t
     | none => true)

/-- `getRandomProblem` (recommendationService.js lines 103-121): count the
matching active problems; if none match, fall back to
`Problem.findOne({isActive: true})`; otherwise return the document at a
random offset.  `randomIndex` stands for `Math.floor(Math.random() * count)`,
a uniform draw from `[0, count)`. -/
def getRandomProblem (topic : Option String) (difficulty : String)
    (problemDb : List Problem) (randomIndex : ℕ) : Option Problem :=
  let matching := problemDb.filter (problemQuery topic difficulty)
  if matching.length = 0 then
    problemDb.find? (fun p => p.isActive)
  else
    matching[randomIndex]?

/-- `findWeakestTopic` (recommendationService.js lines 55-64): among the
user's TopicMastery records, keep those with `masteryLevel < 70`, sort
ascending by masteryLevel (JavaScript `Array.prototype.sort` is stable, as is
`List.mergeSort`), and take the first; `none` when the input list is empty or
no record is below 70. -/
def findWeakestTopic (topicMasteries : List TopicMastery) : Option TopicMastery :=
  if topicMasteries.isEmpty then none
  else
    let sortedTopics :=
      (topicMasteries.filter (fun t => decide (t.masteryLevel < 70))).mergeSort
        (fun a b => decide (a.masteryLevel ≤ b.masteryLevel))
    sortedTopics.head?

/-- `selectDifficultyForTopic` (recommendationService.js lines 67-71). -/
def selectDifficultyForTopic (topicMastery : TopicMastery) : String :=
  if topicMastery.masteryLevel < 30 then "easy"
  else if topicMastery.masteryLevel < 60 then "medium"
  else "hard"

/-- The canonical topic list of `getNextTopic`
(recommendationService.js lines 75-84). -/
def allTopics : List String :=
  ["arrays", "strings", "stack", "queue", "linked-list", "trees", "graphs",
   "dynamic-programming"]

/-- `getNextTopic` (recommendationService.js lines 74-100): skip topics whose
masteryLevel is ≥ 50, and return the first remaining topic for which
`UserProgress.findOne({userId, topic})` finds nothing.  The source's for-loop
with early return is `List.find?` over the same predicate. -/
def getNextTopic (uid : ℕ) (progressDb : List ProgressRec)
    (currentMasteries : List TopicMastery) : Option String :=
  let masteredTopics :=
    (currentMasteries.filter (fun tm => decide (50 ≤ tm.masteryLevel))).map
      (fun tm => tm.topic)
  allTopics.find? (fun topic =>
    !(masteredTopics.contains topic) &&
      (progressDb.find? (fun p => p.userId == uid && p.topic == topic)).isNone)

/-- `generateDailyRecommendation` (recommendationService.js lines 9-52) for an
existing, authenticated user with skill level `skillLevel`.  The stored
collections are passed explicitly: `tmDb` is the TopicMastery collection
(`TopicMastery.find({userId})` is the filter by userId) and `progressDb` the
UserProgress collection.  The source fetches the 10 most recent progress
records but only tests that list for emptiness, so the sort is irrelevant
here.  `randomIndex` is the uniform random draw passed to `getRandomProblem`. -/
def generateDailyRecommendation (uid : ℕ) (tmDb : List TopicMastery)
    (progressDb : List ProgressRec) (skillLevel : String)
    (problemDb : List Problem) (randomIndex : ℕ) : Option Problem :=
  let topicMasteries := tmDb.filter (fun tm => tm.userId == uid)
  let recentProgress := (progressDb.filter (fun p => p.userId == uid)).take 10
  if recentProgress.isEmpty then
    getRandomProblem (some "arrays") "easy" problemDb randomIndex
  else
    match findWeakestTopic topicMasteries with
    | some weakestTopic =>
      getRandomProblem (some weakestTopic.topic)
        (selectDifficultyForTopic weakestTopic) problemDb randomIndex
    | none =>
      match getNextTopic uid progressDb topicMasteries with
      | some nextTopic => getRandomProblem (some nextTopic) "easy" problemDb randomIndex
      | none =>
        getRandomProblem none
          (if skillLevel == "beginner" then "easy" else "medium")
          problemDb randomIndex

/-- The per-tier statistics recomputed by `updateTopicMastery`
(recommendationService.js lines 145-159) for one difficulty tier:
`problemsAttempted[diff]`, `problemsSolved[diff]`, and — only when the tier
has at least one record — `successRates[diff]` and `averageAttempts[diff]`
(otherwise the prior values are kept). -/
def tierStats (topicProgress : List ProgressRec) (diff : String)
    (priorRate priorAvg : ℚ) : ℕ × ℕ × ℚ × ℚ :=
  let diffProblems := topicProgress.filter (fun p => p.difficulty == diff)
  let solvedHere := (diffProblems.filter (fun p => p.status == "solved")).length
  if 0 < diffProblems.length then
    (diffProblems.length, solvedHere,
     ((solvedHere : ℚ) / (diffProblems.length : ℚ)) * 100,
     ((diffProblems.map (fun p => (p.totalAttempts : ℚ))).sum) / (diffProblems.length : ℚ))
  else
    (diffProblems.length, solvedHere, priorRate, priorAvg)

/-- The counter updates of `updateTopicMastery` (recommendationService.js
lines 144-159): the `["easy","medium","hard"].forEach` loop writing
`problemsAttempted`, `problemsSolved`, `successRates` and `averageAttempts`. -/
def applyTopicStats (tm : TopicMastery) (topicProgress : List ProgressRec) :
    TopicMastery :=
  let easyStats := tierStats topicProgress "easy" tm.successRates.easy tm.averageAttempts.easy
  let mediumStats := tierStats topicProgress "medium" tm.successRates.medium tm.averageAttempts.medium
  let hardStats := tierStats topicProgress "hard" tm.successRates.hard tm.averageAttempts.hard
  { tm with
    problemsAttempted := ⟨easyStats.1, mediumStats.1, hardStats.1⟩
    problemsSolved := ⟨easyStats.2.1, mediumStats.2.1, hardStats.2.1⟩
    successRates := { tm.successRates with
      easy := easyStats.2.2.1, medium := mediumStats.2.2.1, hard := hardStats.2.2.1 }
    averageAttempts := ⟨easyStats.2.2.2, mediumStats.2.2.2, hardStats.2.2.2⟩ }

/-- `updateTopicMastery` (recommendationService.js lines 124-170) acting on
the TopicMastery collection `tmDb`: find or create the (userId, topic)
document, reload all of the user's Progress records for the topic, and —
only when at least one exists — recompute the counters and save (the save
runs the TopicMastery pre-save hook and replaces the stored document, or
inserts it when it is new).  With zero matching Progress records the
function returns before saving and the collection is unchanged. -/
def updateTopicMastery (tmDb : List TopicMastery) (progressDb : List ProgressRec)
    (uid : ℕ) (topic : String) : List TopicMastery :=
  let existing := tmDb.find? (fun tm => tm.userId == uid && tm.topic == topic)
  let topicMastery := existing.getD (newTopicMastery uid topic)
  let topicProgress := progressDb.filter (fun p => p.userId == uid && p.topic == topic)
  if topicProgress.isEmpty then tmDb
  else
    let saved := preSaveTopicMastery (applyTopicStats topicMastery topicProgress)
    match existing with
    | some _ =>
      tmDb.map (fun tm => if tm.userId == uid && tm.topic == topic then saved else tm)
    | none => tmDb ++ [saved]

/-- One entry of a DailyRecommendation's `recommendedProblems` array
(backend/models/DailyRecommendation.js). -/
structure RecEntry where
  problemId : ℕ
  difficulty : String
  topic : String
  reason : String
  priority : ℕ
  score : ℕ
deriving DecidableEq, Repr

/-- One DailyRecommendation document (backend/models/DailyRecommendation.js);
`date` is the day truncated to midnight, modelled as an integer day number. -/
structure DailyRec where
  userId : ℕ
  date : ℤ
  recommendedProblems : List RecEntry
  selectedProblem : ℕ
  completed : Bool
  skipped : Bool
deriving DecidableEq, Repr

/-- `DailyRecommendation.findOne({userId, date})`
(backend/routes/problems.js lines 21-24). -/
def findDaily (store : List DailyRec) (uid : ℕ) (day : ℤ) : Option DailyRec :=
  store.find? (fun r => r.userId == uid && r.date == day)

/-- Number of stored DailyRecommendation documents for one (userId, date)
key; the unique compound index on (userId, date) keeps this ≤ 1. -/
def countDaily (store : List DailyRec) (uid : ℕ) (day : ℤ) : ℕ :=
  (store.filter (fun r => r.userId == uid && r.date == day)).length

/-- `recommendation.save()` for a new DailyRecommendation: the store's
unique compound index on (userId, date) (DailyRecommendation.js) rejects the
insert — `none` here, a duplicate-key error in MongoDB — when a document
with the same key already exists. -/
def insertDaily (store : List DailyRec) (r : DailyRec) : Option (List DailyRec) :=
  if store.any (fun x => x.userId == r.userId && x.date == r.date) then none
  else some (store ++ [r])

/-- Response of the GET /api/problems/daily-recommendation handler:
either the success payload (the selected problem id and the recommendation
document) or the 500 error response produced by the handler's catch block. -/
inductive DailyResponse where
  | ok (problem : ℕ) (recommendation : DailyRec)
  | serverError (message : String)
deriving DecidableEq, Repr

/-- The GET /api/problems/daily-recommendation handler
(backend/routes/problems.js lines 14-75), returning the response together
with the resulting store.  `storeAtFind` is the collection state when
`findOne` runs and `storeAtSave` the state when `save` runs: in a
sequential execution the two are equal, and a concurrent request that
inserts a record between the two steps makes them differ.  `generated` is
the problem produced by `recommendationService.generateDailyRecommendation`;
the found-branch never consults it (no recomputation).  A failed save is
caught by the handler's catch block, which responds with a 500 error. -/
def getDailyRecommendationHandler (storeAtFind storeAtSave : List DailyRec)
    (uid : ℕ) (today : ℤ) (generated : Problem) : DailyResponse × List DailyRec :=
  match findDaily storeAtFind uid today with
  | some recommendation =>
    (.ok recommendation.selectedProblem recommendation, storeAtSave)
  | none =>
    let newRec : DailyRec :=
      { userId := uid, date := today,
        recommendedProblems :=
          [{ problemId := generated.id, difficulty := generated.difficulty,
             topic := generated.topic, reason := "daily_recommendation",
             priority := 1, score := 100 }],
        selectedProblem := generated.id, completed := false, skipped := false }
    match insertDaily storeAtSave newRec with
    | some savedStore => (.ok newRec.selectedProblem newRec, savedStore)
    | none => (.serverError "Failed to get daily recommendation", storeAtSave)

/-- The day-completion test of the streak loop (backend/routes/users.js
lines 368-372): find the user's DailyRecommendation for the given day and
test its `completed` flag; a missing record counts as not completed. -/
def dayCompleted (store : List DailyRec) (uid : ℕ) (day : ℤ) : Bool :=
  match findDaily store uid day with
  | some r => r.completed
  | none => false

/-- The `for (let i = 0; i < 30; i++)` streak loop body
(backend/routes/users.js lines 364-377): starting at day offset `i` with
`fuel` iterations left, count consecutive completed days and stop at the
first day without a completed recommendation. -/
def currentStreakAux (store : List DailyRec) (uid : ℕ) (today : ℤ) :
    ℕ → ℕ → ℕ
  | _, 0 => 0
  | i, fuel + 1 =>
    if dayCompleted store uid (today - i) then
      currentStreakAux store uid today (i + 1) fuel + 1
    else 0

/-- The current streak computed by GET /api/progress/streak
(backend/routes/users.js lines 359-377; the identical loop runs in the data
cleanup job, backend/services/backgroundJobs.js lines 169-189): walk
backward day by day from `today` inclusive, capped at a 30-day lookback. -/
def computeCurrentStreak (store : List DailyRec) (uid : ℕ) (today : ℤ) : ℕ :=
  currentStreakAux store uid today 0 30

/-- The longest-streak update of the streak handler
(backend/routes/users.js lines 380-386):
`Math.max(currentStreak, profile.longestStreak || 0)`. -/
def updateLongestStreak (currentStreak longestStreak : ℕ) : ℕ :=
  max currentStreak longestStreak

/-- A (userId, date) key occurs at most once in the DailyRecommendation
store — the guarantee enforced by the unique compound index
`dailyRecommendationSchema.index({userId: 1, date: 1}, {unique: true})`. -/
def UniqueDailyKeys (store : List DailyRec) : Prop :=
  ∀ r₁ ∈ store, ∀ r₂ ∈ store, r₁.userId = r₂.userId → r₁.date = r₂.date → r₁ = r₂

instance (store : List DailyRec) : Decidable (UniqueDailyKeys store) := by
  unfold UniqueDailyKeys
  infer_instance

/-- A completed DailyRecommendation exists for (uid, day) — the
specification-level reading of one step of the streak walk. -/
def completedOn (store : List DailyRec) (uid : ℕ) (day : ℤ) : Prop :=
  ∃ r ∈ store, r.userId = uid ∧ r.date = day ∧ r.completed = true

instance (store : List DailyRec) (uid : ℕ) (day : ℤ) :
    Decidable (completedOn store uid day) := by
  unfold completedOn
  infer_instance

/-- Concrete sample: a TopicMastery document with 3 attempts (2 easy, 1
medium) and 2 solves (1 easy, 1 medium), used to instantiate the mastery
theorems. -/
def tmSampleAttempted : TopicMastery :=
  ⟨1, "arrays", 0, ⟨2, 1, 0⟩, ⟨1, 1, 0⟩, ⟨0, 0, 0, 0⟩, ⟨0, 0, 0⟩, "easy"⟩

/-- Concrete sample: a Progress record already solved at time 5. -/
def progSolvedSample : ProgressRec :=
  ⟨1, 2, [⟨1, "code0", "javascript", "passed", 3, 2, 2, 5⟩], "solved", "easy",
   "arrays", some 5, some 5, 1⟩

/-- Concrete sample: a TopicMastery record with masteryLevel 80 (strong). -/
def tmArrays80 : TopicMastery :=
  ⟨1, "arrays", 80, ⟨5, 3, 1⟩, ⟨5, 2, 1⟩, ⟨0, 0, 0, 0⟩, ⟨0, 0, 0⟩, "hard"⟩

/-- Concrete sample: a TopicMastery record with masteryLevel 30 (weak). -/
def tmStrings30 : TopicMastery :=
  ⟨1, "strings", 30, ⟨3, 0, 0⟩, ⟨1, 0, 0⟩, ⟨0, 0, 0, 0⟩, ⟨0, 0, 0⟩, "easy"⟩

/-- Concrete sample: one attempted (unsolved) Progress record on arrays. -/
def progArraysSample : ProgressRec :=
  ⟨1, 3, [], "attempted", "easy", "arrays", none, none, 0⟩

/-- Concrete sample: an active strings problem. -/
def problemSample : Problem := ⟨7, "strings", "easy", true⟩

/-- Concrete sample: an inactive problem. -/
def problemInactive : Problem := ⟨8, "arrays", "easy", false⟩

/-- Concrete sample: a stored DailyRecommendation for user 1 on day 10. -/
def dailyRecSample : DailyRec :=
  ⟨1, 10, [⟨42, "easy", "arrays", "daily_recommendation", 1, 100⟩], 42, false, false⟩

/-- Concrete sample: completed recommendations for user 1 on days 100, 99
and 98 (and none on day 97). -/
def dailyStore3 : List DailyRec :=
  [⟨1, 100, [], 5, true, false⟩, ⟨1, 99, [], 6, true, false⟩,
   ⟨1, 98, [], 7, true, false⟩]

theorem masteryScore_nonneg (tm : TopicMastery) : 0 ≤ masteryScore tm := by
  unfold masteryScore
  have t1 : (0 : ℚ) ≤ ((totalSolved tm : ℚ) / (totalAttempted tm : ℚ)) * 100 * 0.6 := by
    positivity
  have t2 : (0 : ℚ) ≤
      ((tm.problemsSolved.medium : ℚ) * 1.5 + (tm.problemsSolved.hard : ℚ) * 2.5)
        / (max (totalSolved tm) 1 : ℕ) * 25 := by
    positivity
  have t3 : (0 : ℚ) ≤ min ((totalAttempted tm : ℚ) / 10) 1 * 15 := by
    have hm : (0 : ℚ) ≤ min ((totalAttempted tm : ℚ) / 10) 1 :=
      le_min (by positivity) (by norm_num)
    linarith
  linarith

/-- C3: with `totalAttempted > 0`, the recomputed masteryLevel is
`round(min(successRate * 0.6 + difficulty-weighted bonus + consistency
bonus, 100))` with `successRate = totalSolved / totalAttempted * 100`, and
`successRates.overall` is set to that successRate.  (The source computes
`Math.min(Math.round(score), 100)`; `jsRound_min_100` shows this equals the
claimed `round(min(score, 100))`.) -/
theorem mastery_level_formula (tm : TopicMastery) (h : 0 < totalAttempted tm) :
    (preSaveTopicMastery tm).masteryLevel =
      jsRound (min
        ((totalSolved tm : ℚ) / (totalAttempted tm : ℚ) * 100 * 0.6
          + ((tm.problemsSolved.medium : ℚ) * 1.5 + (tm.problemsSolved.hard : ℚ) * 2.5)
              / (max (totalSolved tm) 1 : ℕ) * 25
          + min ((totalAttempted tm : ℚ) / 10) 1 * 15) 100) ∧
    (preSaveTopicMastery tm).successRates.overall =
      (totalSolved tm : ℚ) / (totalAttempted tm : ℚ) * 100 := by
  unfold preSaveTopicMastery
  simp only [if_pos h]
  constructor
  · exact jsRound_min_100 _
  · trivial

/-- Witness for C3 at the concrete sample `tmSampleAttempted`
(2 of 3 attempted problems solved, one of them medium). -/
theorem mastery_level_formula_witness :
    0 < totalAttempted tmSampleAttempted ∧
    ((preSaveTopicMastery tmSampleAttempted).masteryLevel =
      jsRound (min
        ((totalSolved tmSampleAttempted : ℚ) / (totalAttempted tmSampleAttempted : ℚ) * 100 * 0.6
          + ((tmSampleAttempted.problemsSolved.medium : ℚ) * 1.5
              + (tmSampleAttempted.problemsSolved.hard : ℚ) * 2.5)
              / (max (totalSolved tmSampleAttempted) 1 : ℕ) * 25
          + min ((totalAttempted tmSampleAttempted : ℚ) / 10) 1 * 15) 100) ∧
    (preSaveTopicMastery tmSampleAttempted).successRates.overall =
      (totalSolved tmSampleAttempted : ℚ) / (totalAttempted tmSampleAttempted : ℚ) * 100) :=
  ⟨by decide, mastery_level_formula tmSampleAttempted (by decide)⟩

/-- C4: for any counters, after the pre-save recomputation the masteryLevel
is an integer in [0, 100] (provided the prior stored value respected the
schema bounds `min: 0, max: 100`), and with `totalAttempted == 0` the
masteryLevel keeps its prior value. -/
theorem mastery_level_bounds (tm : TopicMastery)
    (h0 : 0 ≤ tm.masteryLevel) (h1 : tm.masteryLevel ≤ 100) :
    (0 ≤ (preSaveTopicMastery tm).masteryLevel ∧
      (preSaveTopicMastery tm).masteryLevel ≤ 100) ∧
    (totalAttempted tm = 0 → (preSaveTopicMastery tm).masteryLevel = tm.masteryLevel) := by
  by_cases h : 0 < totalAttempted tm
  · unfold preSaveTopicMastery
    simp only [if_pos h]
    refine ⟨⟨?_, ?_⟩, ?_⟩
    · show 0 ≤ min (jsRound (masteryScore tm)) 100
      have hs : (0 : ℤ) ≤ jsRound (masteryScore tm) := by
        unfold jsRound
        rw [Int.le_floor]
        have := masteryScore_nonneg tm
        push_cast
        linarith
      omega
    · show min (jsRound (masteryScore tm)) 100 ≤ 100
      omega
    · intro h'
      omega
  · have h' : totalAttempted tm = 0 := by omega
    unfold preSaveTopicMastery
    simp only [if_neg h]
    exact ⟨⟨h0, h1⟩, fun _ => by trivial⟩

/-- Witness for C4 at a fresh TopicMastery record (all counters zero,
masteryLevel at its default 0). -/
theorem mastery_level_bounds_witness :
    (0 ≤ (newTopicMastery 1 "arrays").masteryLevel ∧
      (newTopicMastery 1 "arrays").masteryLevel ≤ 100) ∧
    ((0 ≤ (preSaveTopicMastery (newTopicMastery 1 "arrays")).masteryLevel ∧
      (preSaveTopicMastery (newTopicMastery 1 "arrays")).masteryLevel ≤ 100) ∧
    (totalAttempted (newTopicMastery 1 "arrays") = 0 →
      (preSaveTopicMastery (newTopicMastery 1 "arrays")).masteryLevel =
        (newTopicMastery 1 "arrays").masteryLevel)) :=
  ⟨⟨by decide, by decide⟩,
   mastery_level_bounds (newTopicMastery 1 "arrays") (by decide) (by decide)⟩

/-- C10: when the user has zero Progress records for the topic,
`updateTopicMastery` returns before saving: the TopicMastery collection is
returned entirely unchanged — no document is created and no existing
document is modified. -/
theorem updateTopicMastery_no_progress_frame (tmDb : List TopicMastery)
    (progressDb : List ProgressRec) (uid : ℕ) (topic : String)
    (h : progressDb.filter (fun p => p.userId == uid && p.topic == topic) = []) :
    updateTopicMastery tmDb progressDb uid topic = tmDb := by
  unfold updateTopicMastery
  simp [h]

/-- Witness for C10: user 1 has a Progress record for arrays but none for
strings, and a stored TopicMastery for arrays; updating strings mastery
leaves the collection untouched. -/
theorem updateTopicMastery_no_progress_frame_witness :
    [progArraysSample].filter (fun p => p.userId == 1 && p.topic == "strings") = [] ∧
    updateTopicMastery [tmArrays80] [progArraysSample] 1 "strings" = [tmArrays80] :=
  ⟨by decide,
   updateTopicMastery_no_progress_frame [tmArrays80] [progArraysSample] 1 "strings"
     (by decide)⟩

/-- Counterexample to C2: `progSolvedSample` is solved with
`solvedDate = some 5`; submitting a further failing attempt (1 of 2 test
cases passed) yields status "attempted", not "solved" — the submit handler's
else-branch (problems.js lines 178-180) overwrites the status
unconditionally.  The solvedDate is indeed left unchanged. -/
theorem submit_fail_after_solve_reverts_status :
    (submitAttempt (some progSolvedSample) 1 2 "easy" "arrays" "code1"
        "javascript" 4 1 2 9).status = "attempted" ∧
    ¬ (submitAttempt (some progSolvedSample) 1 2 "easy" "arrays" "code1"
        "javascript" 4 1 2 9).status = "solved" ∧
    (submitAttempt (some progSolvedSample) 1 2 "easy" "arrays" "code1"
        "javascript" 4 1 2 9).solvedDate = some 5 := by
  refine ⟨?_, ?_, ?_⟩ <;> decide

/-- C2 as amended: once `solvedDate` is set it never changes under further
attempts; but the status does not survive a failing attempt — a failing
submission sets it to "attempted" even when the record was "solved", while a
passing submission sets it (back) to "solved". -/
theorem solvedDate_fixed_under_attempts (p : ProgressRec) (d : ℕ)
    (uid problemId : ℕ) (problemDifficulty problemTopic code language : String)
    (timeTaken testCasesPassed totalTestCases now : ℕ)
    (h : p.solvedDate = some d) :
    (submitAttempt (some p) uid problemId problemDifficulty problemTopic code
        language timeTaken testCasesPassed totalTestCases now).solvedDate = some d ∧
    (testCasesPassed ≠ totalTestCases →
      (submitAttempt (some p) uid problemId problemDifficulty problemTopic code
        language timeTaken testCasesPassed totalTestCases now).status = "attempted") ∧
    (testCasesPassed = totalTestCases →
      (submitAttempt (some p) uid problemId problemDifficulty problemTopic code
        language timeTaken testCasesPassed totalTestCases now).status = "solved") := by
  unfold submitAttempt preSaveProgress
  by_cases hp : testCasesPassed = totalTestCases <;>
    cases hA : p.attempts <;>
      (simp [hp, h, hA]; constructor <;> (split <;> rfl))

/-- Witness for C2 as amended: the solved sample record keeps
`solvedDate = some 5` under a later failing attempt, which demotes the
status to "attempted". -/
theorem solvedDate_fixed_under_attempts_witness :
    progSolvedSample.solvedDate = some 5 ∧
    ((submitAttempt (some progSolvedSample) 1 2 "easy" "arrays" "code1"
        "javascript" 4 1 2 9).solvedDate = some 5 ∧
    ((1 : ℕ) ≠ 2 →
      (submitAttempt (some progSolvedSample) 1 2 "easy" "arrays" "code1"
        "javascript" 4 1 2 9).status = "attempted") ∧
    ((1 : ℕ) = 2 →
      (submitAttempt (some progSolvedSample) 1 2 "easy" "arrays" "code1"
        "javascript" 4 1 2 9).status = "solved")) :=
  ⟨by decide,
   solvedDate_fixed_under_attempts progSolvedSample 5 1 2 "easy" "arrays" "code1"
     "javascript" 4 1 2 9 (by decide)⟩

/-- C1: if a DailyRecommendation already exists for (user, day), the handler
returns it unchanged for any value the recommendation generator could have
produced (no recomputation — the result does not depend on `g` — and no
writes — the store is returned as-is); the store still holds exactly one
record for that key, and running the handler again on the resulting store
returns the same record, hence the same `selectedProblem`. -/
theorem daily_recommendation_idempotent (store : List DailyRec) (uid : ℕ)
    (today : ℤ) (r : DailyRec)
    (hfound : findDaily store uid today = some r)
    (hcount : countDaily store uid today = 1) :
    ∀ g g' : Problem,
      getDailyRecommendationHandler store store uid today g =
        (.ok r.selectedProblem r, store) ∧
      countDaily (getDailyRecommendationHandler store store uid today g).2 uid today = 1 ∧
      (getDailyRecommendationHandler
          (getDailyRecommendationHandler store store uid today g).2
          (getDailyRecommendationHandler store store uid today g).2
          uid today g').1 = .ok r.selectedProblem r := by
  have hmain : ∀ gg : Problem,
      getDailyRecommendationHandler store store uid today gg =
        (.ok r.selectedProblem r, store) := by
    intro gg
    simp only [getDailyRecommendationHandler, hfound]
  intro g g'
  refine ⟨hmain g, ?_, ?_⟩
  · rw [hmain g]
    exact hcount
  · rw [hmain g]
    rw [hmain g']

/-- Witness for C1: the store holding exactly `dailyRecSample` for
(user 1, day 10) is returned unchanged with the stored problem 42, for two
different generator outputs. -/
theorem daily_recommendation_idempotent_witness :
    findDaily [dailyRecSample] 1 10 = some dailyRecSample ∧
    countDaily [dailyRecSample] 1 10 = 1 ∧
    (getDailyRecommendationHandler [dailyRecSample] [dailyRecSample] 1 10 problemSample =
        (.ok dailyRecSample.selectedProblem dailyRecSample, [dailyRecSample]) ∧
      countDaily (getDailyRecommendationHandler [dailyRecSample] [dailyRecSample]
          1 10 problemSample).2 1 10 = 1 ∧
      (getDailyRecommendationHandler
          (getDailyRecommendationHandler [dailyRecSample] [dailyRecSample] 1 10 problemSample).2
          (getDailyRecommendationHandler [dailyRecSample] [dailyRecSample] 1 10 problemSample).2
          1 10 problemInactive).1 = .ok dailyRecSample.selectedProblem dailyRecSample) :=
  ⟨by decide, by decide,
   daily_recommendation_idempotent [dailyRecSample] 1 10 dailyRecSample
     (by decide) (by decide) problemSample problemInactive⟩

/-- Counterexample to C8: user 1 has no record at lookup time, but by save
time a concurrent request has stored `dailyRecSample` for the same
(user 1, day 10) key; the insert hits the unique index, the handler's catch
block fires, and the response is the 500 error — the existing record is not
re-read and not returned. -/
theorem daily_conflict_returns_server_error :
    (getDailyRecommendationHandler [] [dailyRecSample] 1 10 problemSample).1 =
      .serverError "Failed to get daily recommendation" ∧
    (getDailyRecommendationHandler [] [dailyRecSample] 1 10 problemSample).1 ≠
      .ok dailyRecSample.selectedProblem dailyRecSample := by
  constructor <;> decide

/-- C8 as amended: when the lookup finds nothing but a concurrent request
has already stored a record for the same (userId, date) key, the save fails
on the unique index, so no second record is created (the store is returned
unchanged) — but the handler surfaces the failure as a fatal 500
"Failed to get daily recommendation" response instead of re-reading and
returning the existing record. -/
theorem daily_conflict_no_duplicate_but_error
    (storeAtFind storeAtSave : List DailyRec) (uid : ℕ) (today : ℤ) (g : Problem)
    (hmiss : findDaily storeAtFind uid today = none)
    (hdup : ∃ x ∈ storeAtSave, (x.userId == uid && x.date == today) = true) :
    getDailyRecommendationHandler storeAtFind storeAtSave uid today g =
      (.serverError "Failed to get daily recommendation", storeAtSave) := by
  obtain ⟨x, hx, hkey⟩ := hdup
  have hany : (storeAtSave.any fun x => x.userId == uid && x.date == today) = true :=
    List.any_eq_true.mpr ⟨x, hx, hkey⟩
  simp only [getDailyRecommendationHandler, hmiss, insertDaily]
  simp [hany]

/-- Witness for C8 as amended, at the concrete race of the counterexample. -/
theorem daily_conflict_no_duplicate_but_error_witness :
    findDaily [] 1 10 = none ∧
    (∃ x ∈ [dailyRecSample], (x.userId == 1 && x.date == 10) = true) ∧
    getDailyRecommendationHandler [] [dailyRecSample] 1 10 problemSample =
      (.serverError "Failed to get daily recommendation", [dailyRecSample]) :=
  ⟨by decide, ⟨dailyRecSample, by decide, by decide⟩,
   daily_conflict_no_duplicate_but_error [] [dailyRecSample] 1 10 problemSample
     (by decide) ⟨dailyRecSample, by decide, by decide⟩⟩

/-- C7: the problem selector (i) only ever returns active problems, (ii) for
any uniform draw `randomIndex < matchCount` returns exactly the
`randomIndex`-th element of the filtered active set (so the uniform draw
ranges over the whole filtered set), (iii) on an empty filtered set falls
back to a single active problem ignoring the filters, and (iv) returns
nothing at all (the NotFound signal) when the catalog has no active
problem. -/
theorem getRandomProblem_spec (topic : Option String) (difficulty : String)
    (problemDb : List Problem) (randomIndex : ℕ) :
    (∀ p, getRandomProblem topic difficulty problemDb randomIndex = some p →
      p.isActive = true) ∧
    (randomIndex < (problemDb.filter (problemQuery topic difficulty)).length →
      getRandomProblem topic difficulty problemDb randomIndex =
        (problemDb.filter (problemQuery topic difficulty))[randomIndex]?) ∧
    (problemDb.filter (problemQuery topic difficulty) = [] →
      getRandomProblem topic difficulty problemDb randomIndex =
        problemDb.find? (fun p => p.isActive)) ∧
    ((∀ p ∈ problemDb, p.isActive = false) →
      getRandomProblem topic difficulty problemDb randomIndex = none) := by
  refine ⟨?_, ?_, ?_, ?_⟩
  · intro p hp
    unfold getRandomProblem at hp
    by_cases hl : (problemDb.filter (problemQuery topic difficulty)).length = 0
    · rw [if_pos hl] at hp
      have := List.find?_some hp
      simpa using this
    · rw [if_neg hl] at hp
      have hmem : p ∈ problemDb.filter (problemQuery topic difficulty) := by
        have := List.getElem?_eq_some_iff.mp hp
        obtain ⟨hlt, hget⟩ := this
        exact hget ▸ List.getElem_mem hlt
      have hq := (List.mem_filter.mp hmem).2
      unfold problemQuery at hq
      simp only [Bool.and_eq_true] at hq
      exact hq.1.1
  · intro h
    unfold getRandomProblem
    rw [if_neg (by omega)]
  · intro h
    unfold getRandomProblem
    simp [h]
  · intro h
    have hfil : problemDb.filter (problemQuery topic difficulty) = [] := by
      rw [List.filter_eq_nil_iff]
      intro p hp
      unfold problemQuery
      simp [h p hp]
    unfold getRandomProblem
    rw [if_pos (by rw [hfil]; rfl)]
    rw [List.find?_eq_none]
    intro p hp
    simp [h p hp]

/-- Witness for C7: with a catalog containing only an inactive problem, the
selector signals NotFound by returning nothing. -/
theorem getRandomProblem_spec_witness :
    (∀ p ∈ [problemInactive], p.isActive = false) ∧
    getRandomProblem (some "arrays") "easy" [problemInactive] 0 = none :=
  ⟨by decide,
   (getRandomProblem_spec (some "arrays") "easy" [problemInactive] 0).2.2.2 (by decide)⟩

theorem currentStreakAux_spec (store : List DailyRec) (uid : ℕ) (today : ℤ) :
    ∀ (fuel i : ℕ),
      currentStreakAux store uid today i fuel ≤ fuel ∧
      (∀ j < currentStreakAux store uid today i fuel,
        dayCompleted store uid (today - (i + j : ℕ)) = true) ∧
      (currentStreakAux store uid today i fuel < fuel →
        dayCompleted store uid
          (today - (i + currentStreakAux store uid today i fuel : ℕ)) = false) := by
  intro fuel
  induction fuel with
  | zero =>
    intro i
    simp only [currentStreakAux]
    exact ⟨Nat.le_refl 0, fun j hj => absurd hj (by omega), fun h => absurd h (by omega)⟩
  | succ fuel ih =>
    intro i
    by_cases hc : dayCompleted store uid (today - i) = true
    · obtain ⟨h1, h2, h3⟩ := ih (i + 1)
      simp only [currentStreakAux, if_pos hc]
      refine ⟨by omega, ?_, ?_⟩
      · intro j hj
        cases j with
        | zero => simpa using hc
        | succ j' =>
          have hstep := h2 j' (by omega)
          have heq : i + (j' + 1) = (i + 1) + j' := by omega
          rw [heq]
          exact hstep
      · intro hs
        have hlt : currentStreakAux store uid today (i + 1) fuel < fuel := by omega
        have hstop := h3 hlt
        have heq : i + (currentStreakAux store uid today (i + 1) fuel + 1) =
            (i + 1) + currentStreakAux store uid today (i + 1) fuel := by omega
        rw [heq]
        exact hstop
    · simp only [currentStreakAux, if_neg hc]
      refine ⟨by omega, fun j hj => absurd hj (by omega), fun _ => ?_⟩
      simp only [Nat.add_zero]
      exact Bool.not_eq_true _ ▸ (by simpa using hc)

theorem dayCompleted_iff_completedOn (store : List DailyRec) (uid : ℕ) (d : ℤ)
    (uniq : UniqueDailyKeys store) :
    dayCompleted store uid d = true ↔ completedOn store uid d := by
  unfold dayCompleted findDaily completedOn
  cases hfind : store.find? (fun r => r.userId == uid && r.date == d) with
  | none =>
    constructor
    · intro h
      simp at h
    · rintro ⟨r, hr, h1, h2, h3⟩
      rw [List.find?_eq_none] at hfind
      have := hfind r hr
      simp [h1, h2] at this
  | some r' =>
    have hp := List.find?_some hfind
    have hm := List.mem_of_find?_eq_some hfind
    simp only [Bool.and_eq_true, beq_iff_eq] at hp
    constructor
    · intro h
      exact ⟨r', hm, hp.1, hp.2, h⟩
    · rintro ⟨r, hr, h1, h2, h3⟩
      have : r = r' := uniq r hr r' hm (h1.trans hp.1.symm) (h2.trans hp.2.symm)
      rw [← this]
      exact h3

/-- C9: the computed current streak counts the consecutive days, walking
backward from `today` inclusive and capped at a 30-day lookback, on which a
completed DailyRecommendation exists, stopping at the first day lacking one
(under the unique-index guarantee on (userId, date)); and the stored longest
streak is updated to the maximum of its old value and the current streak, so
it never decreases. -/
theorem streak_spec (store : List DailyRec) (uid : ℕ) (today : ℤ) (longest : ℕ)
    (uniq : UniqueDailyKeys store) :
    computeCurrentStreak store uid today ≤ 30 ∧
    (∀ j < computeCurrentStreak store uid today,
      completedOn store uid (today - (j : ℕ))) ∧
    (computeCurrentStreak store uid today < 30 →
      ¬ completedOn store uid (today - (computeCurrentStreak store uid today : ℕ))) ∧
    longest ≤ updateLongestStreak (computeCurrentStreak store uid today) longest ∧
    updateLongestStreak (computeCurrentStreak store uid today) longest =
      max (computeCurrentStreak store uid today) longest := by
  obtain ⟨h1, h2, h3⟩ := currentStreakAux_spec store uid today 30 0
  unfold computeCurrentStreak
  refine ⟨h1, ?_, ?_, ?_, rfl⟩
  · intro j hj
    have := h2 j hj
    rw [Nat.zero_add] at this
    exact (dayCompleted_iff_completedOn store uid _ uniq).mp this
  · intro hs hcontra
    have := h3 hs
    rw [Nat.zero_add] at this
    have := (dayCompleted_iff_completedOn store uid _ uniq).mpr hcontra
    simp_all
  · exact Nat.le_max_right _ _

/-- Witness for C9: completed recommendations on days 100, 99 and 98 but not
97 give a current streak of 3 as of day 100, and the longest streak update
from 0 is 3. -/
theorem streak_spec_witness :
    UniqueDailyKeys dailyStore3 ∧
    computeCurrentStreak dailyStore3 1 100 = 3 ∧
    (computeCurrentStreak dailyStore3 1 100 ≤ 30 ∧
    (∀ j < computeCurrentStreak dailyStore3 1 100,
      completedOn dailyStore3 1 (100 - (j : ℕ))) ∧
    (computeCurrentStreak dailyStore3 1 100 < 30 →
      ¬ completedOn dailyStore3 1 (100 - (computeCurrentStreak dailyStore3 1 100 : ℕ))) ∧
    0 ≤ updateLongestStreak (computeCurrentStreak dailyStore3 1 100) 0 ∧
    updateLongestStreak (computeCurrentStreak dailyStore3 1 100) 0 =
      max (computeCurrentStreak dailyStore3 1 100) 0) :=
  ⟨by decide, by decide, streak_spec dailyStore3 1 100 0 (by decide)⟩

theorem head_mergeSort_first_min (l : List TopicMastery) (r : TopicMastery)
    (h : ((l.mergeSort (fun a b => decide (a.masteryLevel ≤ b.masteryLevel))).head? = some r)) :
    r ∈ l ∧ (∀ x ∈ l, r.masteryLevel ≤ x.masteryLevel) ∧
      ∃ l₁ l₂, l = l₁ ++ r :: l₂ ∧ ∀ x ∈ l₁, r.masteryLevel < x.masteryLevel := by
  have htrans : ∀ (a b c : TopicMastery),
      (fun a b : TopicMastery => decide (a.masteryLevel ≤ b.masteryLevel)) a b →
      (fun a b : TopicMastery => decide (a.masteryLevel ≤ b.masteryLevel)) b c →
      (fun a b : TopicMastery => decide (a.masteryLevel ≤ b.masteryLevel)) a c := by
    intro a b c hab hbc
    simp only [decide_eq_true_eq] at hab hbc ⊢
    omega
  have htotal : ∀ (a b : TopicMastery),
      ((fun a b : TopicMastery => decide (a.masteryLevel ≤ b.masteryLevel)) a b ||
       (fun a b : TopicMastery => decide (a.masteryLevel ≤ b.masteryLevel)) b a) = true := by
    intro a b
    simp only [Bool.or_eq_true, decide_eq_true_eq]
    omega
  revert h
  induction l with
  | nil =>
    intro h
    simp at h
  | cons a t ih =>
    intro h
    obtain ⟨l₁, l₂, h₁, h₂, h₃⟩ :=
      @List.mergeSort_cons TopicMastery
        (fun a b : TopicMastery => decide (a.masteryLevel ≤ b.masteryLevel))
        htrans htotal a t
    cases l₁ with
    | nil =>
      rw [h₁] at h
      simp only [List.nil_append, List.head?_cons, Option.some.injEq] at h
      subst h
      refine ⟨List.mem_cons_self a t, ?_,
        [], t, rfl, fun x hx => absurd hx (List.not_mem_nil x)⟩
      intro x hx
      have hx' : x ∈ List.mergeSort (a :: t)
          (fun a b : TopicMastery => decide (a.masteryLevel ≤ b.masteryLevel)) :=
        List.mem_mergeSort.mpr hx
      rw [h₁] at hx'
      simp only [List.nil_append] at hx'
      rcases List.mem_cons.mp hx' with rfl | hxl₂
      · exact le_refl _
      · have hsorted := List.sorted_mergeSort htrans htotal (a :: t)
        rw [h₁] at hsorted
        simp only [List.nil_append] at hsorted
        have := (List.pairwise_cons.mp hsorted).1 x hxl₂
        simpa using this
    | cons c t₁ =>
      rw [h₁] at h
      simp only [List.cons_append, List.head?_cons, Option.some.injEq] at h
      subst h
      have hihprem : ((t.mergeSort
          (fun a b : TopicMastery => decide (a.masteryLevel ≤ b.masteryLevel))).head? =
            some c) := by
        rw [h₂]
        rfl
      obtain ⟨hmem, hmin, m₁, m₂, hdec, hstrict⟩ := ih hihprem
      have hca : c.masteryLevel < a.masteryLevel := by
        have hb := h₃ c (List.mem_cons_self c t₁)
        simp only [Bool.not_eq_eq_eq_not, Bool.not_true, decide_eq_false_iff_not] at hb
        omega
      refine ⟨List.mem_cons_of_mem a hmem, ?_, a :: m₁, m₂, by rw [hdec]; simp, ?_⟩
      · intro x hx
        rcases List.mem_cons.mp hx with rfl | hxt
        · omega
        · exact hmin x hxt
      · intro x hx
        rcases List.mem_cons.mp hx with rfl | hxm
        · exact hca
        · exact hstrict x hxm

/-- C5: for a non-new user whose TopicMastery list has a record below 70,
`findWeakestTopic` returns a record `r` that is among the records below 70,
has the lowest masteryLevel of those, and — by stability of the sort — is
the first record attaining that minimum in input order; the daily
recommendation then draws a problem for `r.topic` at difficulty easy when
`masteryLevel < 30`, medium when `< 60`, hard otherwise. -/
theorem weakest_topic_rule (uid : ℕ) (tmDb : List TopicMastery)
    (progressDb : List ProgressRec) (skillLevel : String)
    (problemDb : List Problem) (randomIndex : ℕ)
    (userMasteries weakOnes : List TopicMastery)
    (hum : tmDb.filter (fun tm => tm.userId == uid) = userMasteries)
    (hweakList : userMasteries.filter (fun t => decide (t.masteryLevel < 70)) = weakOnes)
    (hnew : progressDb.filter (fun p => p.userId == uid) ≠ [])
    (hweak : weakOnes ≠ []) :
    ∃ r, findWeakestTopic userMasteries = some r ∧
      r ∈ weakOnes ∧
      (∀ x ∈ weakOnes, r.masteryLevel ≤ x.masteryLevel) ∧
      (∃ l₁ l₂, weakOnes = l₁ ++ r :: l₂ ∧ ∀ x ∈ l₁, r.masteryLevel < x.masteryLevel) ∧
      generateDailyRecommendation uid tmDb progressDb skillLevel problemDb randomIndex =
        getRandomProblem (some r.topic)
          (if r.masteryLevel < 30 then "easy"
           else if r.masteryLevel < 60 then "medium" else "hard")
          problemDb randomIndex := by
  have huserNe : userMasteries ≠ [] := by
    intro hempty
    rw [hempty] at hweakList
    simp only [List.filter_nil] at hweakList
    exact hweak hweakList.symm
  have hfw : findWeakestTopic userMasteries =
      ((userMasteries.filter (fun t => decide (t.masteryLevel < 70))).mergeSort
        (fun a b => decide (a.masteryLevel ≤ b.masteryLevel))).head? := by
    cases userMasteries with
    | nil => exact absurd rfl huserNe
    | cons a t => rfl
  rw [hweakList] at hfw
  have hne : (weakOnes.mergeSort (fun a b => decide (a.masteryLevel ≤ b.masteryLevel))) ≠ [] := by
    intro hempty
    have hlen := congrArg List.length hempty
    rw [List.length_mergeSort] at hlen
    exact hweak (List.eq_nil_of_length_eq_zero hlen)
  obtain ⟨r, hr⟩ : ∃ r,
      (weakOnes.mergeSort (fun a b => decide (a.masteryLevel ≤ b.masteryLevel))).head? =
        some r := by
    cases hms : weakOnes.mergeSort (fun a b => decide (a.masteryLevel ≤ b.masteryLevel)) with
    | nil => exact absurd hms hne
    | cons x xs => exact ⟨x, rfl⟩
  have hfwr : findWeakestTopic userMasteries = some r := by rw [hfw]; exact hr
  have hsorted := head_mergeSort_first_min weakOnes r hr
  obtain ⟨hmem, hmin, l₁, l₂, hdec, hstrict⟩ := hsorted
  have hrpne : ((progressDb.filter (fun p => p.userId == uid)).take 10).isEmpty = false := by
    rw [List.isEmpty_eq_false]
    cases hpd : progressDb.filter (fun p => p.userId == uid) with
    | nil => exact absurd hpd hnew
    | cons a t => simp
  have hgen : generateDailyRecommendation uid tmDb progressDb skillLevel problemDb randomIndex =
      getRandomProblem (some r.topic) (selectDifficultyForTopic r) problemDb randomIndex := by
    unfold generateDailyRecommendation
    rw [hum]
    simp only [hrpne, Bool.false_eq_true, if_false, hfwr]
  exact ⟨r, hfwr, hmem, hmin, ⟨l₁, l₂, hdec, hstrict⟩, by rw [hgen]; rfl⟩

/-- Witness for C5: user 1 has arrays at mastery 80 and strings at 30 and an
attempted arrays problem; the weakest-topic rule fires for strings and, with
mastery 30, requests a medium problem. -/
theorem weakest_topic_rule_witness :
    [tmArrays80, tmStrings30].filter (fun tm => tm.userId == 1) =
      [tmArrays80, tmStrings30] ∧
    [tmArrays80, tmStrings30].filter (fun t => decide (t.masteryLevel < 70)) =
      [tmStrings30] ∧
    [progArraysSample].filter (fun p => p.userId == 1) ≠ [] ∧
    [tmStrings30] ≠ ([] : List TopicMastery) ∧
    (∃ r, findWeakestTopic [tmArrays80, tmStrings30] = some r ∧
      r ∈ [tmStrings30] ∧
      (∀ x ∈ [tmStrings30], r.masteryLevel ≤ x.masteryLevel) ∧
      (∃ l₁ l₂, [tmStrings30] = l₁ ++ r :: l₂ ∧ ∀ x ∈ l₁, r.masteryLevel < x.masteryLevel) ∧
      generateDailyRecommendation 1 [tmArrays80, tmStrings30] [progArraysSample]
          "beginner" [problemSample] 0 =
        getRandomProblem (some r.topic)
          (if r.masteryLevel < 30 then "easy"
           else if r.masteryLevel < 60 then "medium" else "hard")
          [problemSample] 0) :=
  ⟨by decide, by decide, by decide, by decide,
   weakest_topic_rule 1 [tmArrays80, tmStrings30] [progArraysSample] "beginner"
     [problemSample] 0 [tmArrays80, tmStrings30] [tmStrings30]
     (by decide) (by decide) (by decide) (by decide)⟩

/-- C6: when no TopicMastery record of the user is below 70 (the
weakest-topic rule does not fire) and the user is not brand new, a topic `t`
returned by `getNextTopic` is the first entry of the canonical topic list
whose predecessors were all either mastered (some record at masteryLevel
≥ 50) or already attempted (some Progress record); `t` itself has zero
Progress records (an attempted topic is never returned, however low its
mastery) and no record at masteryLevel ≥ 50; and the daily recommendation
then draws a problem for `t` at difficulty easy. -/
theorem next_topic_rule (uid : ℕ) (tmDb : List TopicMastery)
    (progressDb : List ProgressRec) (skillLevel : String) (problemDb : List Problem)
    (randomIndex : ℕ) (userMasteries : List TopicMastery) (t : String)
    (hum : tmDb.filter (fun tm => tm.userId == uid) = userMasteries)
    (hnoweak : ∀ tm ∈ userMasteries, ¬ tm.masteryLevel < 70)
    (hnew : progressDb.filter (fun p => p.userId == uid) ≠ [])
    (hfound : getNextTopic uid progressDb userMasteries = some t) :
    (∃ l₁ l₂, allTopics = l₁ ++ t :: l₂ ∧
      ∀ t' ∈ l₁,
        (∃ tm ∈ userMasteries, 50 ≤ tm.masteryLevel ∧ tm.topic = t') ∨
        (∃ p ∈ progressDb, p.userId = uid ∧ p.topic = t')) ∧
    (∀ p ∈ progressDb, p.userId = uid → p.topic ≠ t) ∧
    (∀ tm ∈ userMasteries, tm.topic = t → tm.masteryLevel < 50) ∧
    generateDailyRecommendation uid tmDb progressDb skillLevel problemDb randomIndex =
      getRandomProblem (some t) "easy" problemDb randomIndex := by
  have hfound' := hfound
  simp only [getNextTopic] at hfound'
  rw [List.find?_eq_some] at hfound'
  obtain ⟨hpred, as, bs, hdecomp, hprev⟩ := hfound'
  simp only [Bool.and_eq_true, Bool.not_eq_true', Option.isNone_iff_eq_none] at hpred
  obtain ⟨hcont, hnone⟩ := hpred
  rw [List.find?_eq_none] at hnone
  refine ⟨⟨as, bs, hdecomp, ?_⟩, ?_, ?_, ?_⟩
  · intro t' ht'
    have hp' := hprev t' ht'
    have hp2 : (∃ a, (a ∈ userMasteries ∧ 50 ≤ a.masteryLevel) ∧ a.topic = t') ∨
        ∃ x ∈ progressDb, x.userId = uid ∧ x.topic = t' := by
      simpa using hp'
    rcases hp2 with ⟨tm, ⟨htmmem, h50⟩, htop⟩ | hx
    · exact Or.inl ⟨tm, htmmem, h50, htop⟩
    · exact Or.inr hx
  · intro p hp hpuid htop
    apply hnone p hp
    simp [hpuid, htop]
  · intro tm htm htop
    by_contra hge
    push_neg at hge
    have hmem : t ∈ (userMasteries.filter
        (fun tm => decide (50 ≤ tm.masteryLevel))).map (fun tm => tm.topic) :=
      List.mem_map.mpr ⟨tm, List.mem_filter.mpr ⟨htm, by simpa using hge⟩, htop⟩
    have : ((userMasteries.filter
        (fun tm => decide (50 ≤ tm.masteryLevel))).map (fun tm => tm.topic)).contains t =
          true := by
      simpa [List.contains, List.elem_iff] using hmem
    rw [this] at hcont
    simp at hcont
  · have hfwnone : findWeakestTopic userMasteries = none := by
      unfold findWeakestTopic
      by_cases he : userMasteries.isEmpty
      · rw [if_pos he]
      · rw [if_neg he]
        have hfil : userMasteries.filter (fun x => decide (x.masteryLevel < 70)) = [] := by
          rw [List.filter_eq_nil_iff]
          intro tm htm
          simpa using hnoweak tm htm
        simp [hfil]
    have hrpne : ((progressDb.filter (fun p => p.userId == uid)).take 10).isEmpty = false := by
      rw [List.isEmpty_eq_false]
      cases hpd : progressDb.filter (fun p => p.userId == uid) with
      | nil => exact absurd hpd hnew
      | cons a tl => simp
    unfold generateDailyRecommendation
    rw [hum]
    simp only [hrpne, Bool.false_eq_true, if_false, hfwnone, hfound]

/-- Witness for C6: user 1 has only arrays at mastery 80 and one arrays
Progress record; arrays is skipped as mastered and the first untouched topic
is strings, recommended at difficulty easy. -/
theorem next_topic_rule_witness :
    [tmArrays80].filter (fun tm => tm.userId == 1) = [tmArrays80] ∧
    (∀ tm ∈ [tmArrays80], ¬ tm.masteryLevel < 70) ∧
    [progArraysSample].filter (fun p => p.userId == 1) ≠ [] ∧
    getNextTopic 1 [progArraysSample] [tmArrays80] = some "strings" ∧
    ((∃ l₁ l₂, allTopics = l₁ ++ "strings" :: l₂ ∧
      ∀ t' ∈ l₁,
        (∃ tm ∈ [tmArrays80], 50 ≤ tm.masteryLevel ∧ tm.topic = t') ∨
        (∃ p ∈ [progArraysSample], p.userId = 1 ∧ p.topic = t')) ∧
    (∀ p ∈ [progArraysSample], p.userId = 1 → p.topic ≠ "strings") ∧
    (∀ tm ∈ [tmArrays80], tm.topic = "strings" → tm.masteryLevel < 50) ∧
    generateDailyRecommendation 1 [tmArrays80] [progArraysSample] "beginner"
        [problemSample] 0 =
      getRandomProblem (some "strings") "easy" [problemSample] 0) :=
  ⟨by decide, by decide, by decide, by decide,
   next_topic_rule 1 [tmArrays80] [progArraysSample] "beginner" [problemSample] 0
     [tmArrays80] "strings" (by decide) (by decide) (by decide) (by decide)⟩
